import Mathlib

/-!
Verification of the AlvoieTest field-service portal core: the service-call
status lifecycle (`Dashboard.tsx` / `ServiceCallCard.tsx`), the call queue
partitioner (`Dashboard.tsx`), and the expense aggregator
(`ExpenseSubmissions.tsx`).

The TypeScript source is shallowly embedded: records become structures whose
enum-valued columns are raw strings (the code receives them from the backing
store through an unchecked cast, so at run time any string can appear),
monetary amounts become exact rationals, and the JavaScript number arithmetic
used by the aggregator is modelled by explicit IEEE-754 binary64 rounding on
rationals.
-/

set_option maxRecDepth 100000

namespace Alvoie

/-- Customer record, from `src/types` (`Customer` interface). -/
structure Customer where
  id : String
  name : String
  email : Option String
  phone : Option String
  company : String
  address : String
  created_at : String
  updated_at : String
deriving DecidableEq, Repr

/-- Service-call record, from `src/types` (`ServiceCall` interface).  The
`priority`, `status` and `category` columns are kept as raw strings: the
component obtains them from the store through the unchecked cast
`data as ServiceCall[]`, so at run time they are arbitrary strings of which
the interface's union types name the expected values. -/
structure ServiceCall where
  id : String
  ticket_number : String
  customer_id : String
  assigned_engineer_id : String
  title : String
  description : String
  priority : String
  status : String
  category : String
  location : String
  scheduled_date : Option String
  started_at : Option String
  completed_at : Option String
  notes : String
  created_at : String
  updated_at : String
  customer : Option Customer
deriving DecidableEq, Repr

/-- A calendar date (year, month, day), the parsed form of an ISO date string
such as `expense_date`.  `new Date(s)` followed by component extraction is
modelled as field access on this structure. -/
structure YMD where
  year : Nat
  month : Nat
  day : Nat
deriving DecidableEq, Repr

/-- Expense record, from `src/types` (`ExpenseSubmission` interface).  The
`amount` column is `numeric(10,2)` in the store; it is carried here as the
exact rational it denotes.  `category` and `status` are raw strings, as for
`ServiceCall`. -/
structure ExpenseSubmission where
  id : String
  engineer_id : String
  expense_date : YMD
  category : String
  amount : ℚ
  currency : String
  description : String
  receipt_url : String
  service_call_id : Option String
  status : String
  submitted_at : Option String
  reviewed_at : Option String
  reviewed_by : Option String
  review_notes : String
  payment_date : Option String
  created_at : String
  updated_at : String
deriving DecidableEq, Repr

/-! ### Call queue partitioner (`Dashboard.tsx`, `fetchServiceCalls` lines 32-37) -/

/-- The three display buckets held in the `assignedCalls`, `inProgressCalls`
and `closedCalls` state variables of `Dashboard`. -/
structure Buckets where
  assigned : List ServiceCall
  inProgress : List ServiceCall
  closed : List ServiceCall
deriving DecidableEq, Repr

/-- The partitioning performed in `fetchServiceCalls`:
`typedData.filter(call => call.status === 'assigned')` and likewise for
`'in_progress'` and `'closed'`. -/
def partition (calls : List ServiceCall) : Buckets :=
  { assigned := calls.filter (fun call => call.status = "assigned")
  , inProgress := calls.filter (fun call => call.status = "in_progress")
  , closed := calls.filter (fun call => call.status = "closed") }

/-- A status string is one of the three values of the `ServiceCall['status']`
union type. -/
def KnownStatus (s : String) : Prop :=
  s = "assigned" ∨ s = "in_progress" ∨ s = "closed"

instance : DecidablePred KnownStatus := fun s => by
  unfold KnownStatus; infer_instance

/-! ### Service-call lifecycle (`Dashboard.tsx`, `handleStatusChange` lines 70-91,
and `ServiceCallCard.tsx`, `getActionButton` lines 36-60) -/

/-- The `updateData` object built by `handleStatusChange`: it always carries
`status: newStatus`, adds `started_at` when the requested status is
`'in_progress'`, and adds `completed_at` when it is `'closed'`.  The current
status of the call is not consulted and no request is rejected. -/
def updateDataFor (newStatus : String) (now : String) : List (String × String) :=
  [("status", newStatus)] ++
    (if newStatus = "in_progress" then [("started_at", now)]
     else if newStatus = "closed" then [("completed_at", now)]
     else [])

/-- Modelled from the spec: the data collaborator's
`updateServiceCall(id, patch)` operation (section 6) applies a patch by
setting exactly the named columns of the record; this sets one named column.
(The collaborator itself is the external backing store, not part of the
repository.) -/
def setField (c : ServiceCall) (kv : String × String) : ServiceCall :=
  if kv.1 = "status" then { c with status := kv.2 }
  else if kv.1 = "started_at" then { c with started_at := some kv.2 }
  else if kv.1 = "completed_at" then { c with completed_at := some kv.2 }
  else c

/-- Modelled from the spec: applying a whole patch sets each named column in
turn and changes no column the patch does not name. -/
def applyPatch (c : ServiceCall) (patch : List (String × String)) : ServiceCall :=
  patch.foldl setField c

/-- The action offered by `ServiceCallCard.getActionButton`, reduced to the
status it would request: the `Start Work` button requests `'in_progress'`
exactly when the call is `'assigned'`, the `Complete` button requests
`'closed'` exactly when the call is `'in_progress'`, and no button is
rendered otherwise (the function returns `null`). -/
def getActionButton (status : String) : Option String :=
  if status = "assigned" then some "in_progress"
  else if status = "in_progress" then some "closed"
  else none

/-! ### IEEE-754 binary64 arithmetic model

The aggregator in `ExpenseSubmissions.tsx` computes its sums with JavaScript
`number` addition, i.e. IEEE-754 binary64 arithmetic.  A binary64 value is a
rational of the form `m * 2^e` with `|m| < 2^53`; an operation computes the
exact rational result and rounds it to the nearest such value, ties going to
the even significand.  `roundB64` below performs that rounding on an exact
rational (normal range only: the magnitudes in this development are nowhere
near overflow or subnormal territory). -/

/-- Fuel-bounded structural base-two logarithm: `log2Fuel fuel n` is
`Nat.log2 n` whenever `n ≤ fuel`.  (A structural copy is used because the
kernel cannot unfold the well-founded recursion of `Nat.log2`.) -/
def log2Fuel (fuel n : ℕ) : ℕ :=
  match fuel with
  | 0 => 0
  | fuel + 1 => if 2 ≤ n then log2Fuel fuel (n / 2) + 1 else 0

/-- Floor of the base-two logarithm of a natural number. -/
def natLog2 (n : ℕ) : ℕ :=
  log2Fuel n n

/-- Decides whether the fraction `n / d` (naturals, `d > 0`) is below `2^e`.
All arithmetic stays on naturals so that the kernel can evaluate it. -/
def fracLtPow2 (n d : ℕ) (e : ℤ) : Bool :=
  if 0 ≤ e then n < d * 2 ^ e.toNat else n * 2 ^ (-e).toNat < d

/-- Floor of the base-two logarithm of the positive fraction `n / d`: the
unique `e` with `2^e ≤ n / d < 2^(e+1)`.  `Nat.log2` of numerator and
denominator pins the answer down to two candidates; one comparison settles
it. -/
def fracLog2 (n d : ℕ) : ℤ :=
  let guess : ℤ := (natLog2 n : ℤ) - (natLog2 d : ℤ)
  if fracLtPow2 n d guess then guess - 1 else guess

/-- Round the rational `n / d` (integer numerator, positive natural
denominator, in any representation) to the nearest IEEE-754 binary64 value:
scale the magnitude into a 53-bit significand, round to nearest with ties to
the even significand, and rebuild the rational with `mkRat`.  Normal range
only — the magnitudes in this development are nowhere near binary64 overflow
or subnormal territory. -/
def roundB64Frac (n : ℤ) (d : ℕ) : ℚ :=
  if n = 0 then 0
  else
    let na := n.natAbs
    let scale : ℤ := fracLog2 na d - 52
    let bigNum : ℕ := na * 2 ^ (-scale).toNat
    let bigDen : ℕ := d * 2 ^ scale.toNat
    let lo : ℕ := bigNum / bigDen
    let rem : ℕ := bigNum % bigDen
    let m : ℕ :=
      if 2 * rem < bigDen then lo
      else if bigDen < 2 * rem then lo + 1
      else if lo % 2 = 0 then lo
      else lo + 1
    let sgn : ℤ := if 0 ≤ n then 1 else -1
    if 0 ≤ scale then mkRat (sgn * ((m * 2 ^ scale.toNat : ℕ) : ℤ)) 1
    else mkRat (sgn * (m : ℤ)) (2 ^ (-scale).toNat)

/-- Round a rational to the nearest binary64 value. -/
def roundB64 (q : ℚ) : ℚ :=
  roundB64Frac q.num q.den

/-- Binary64 addition: the exact rational sum (formed fraction-wise, which
`roundB64Frac` accepts in any representation) rounded to the nearest
binary64 value. -/
def jsAdd (x y : ℚ) : ℚ :=
  roundB64Frac (x.num * (y.den : ℤ) + y.num * (x.den : ℤ)) (x.den * y.den)

/-- The summation pattern `list.reduce((sum, exp) => sum + Number(exp.amount), 0)`
of `calculateTotals`: a left fold with binary64 addition.  Each stored decimal
amount is itself converted to the nearest binary64 value on its way out of the
store (JSON parsing; `Number()` is the identity on numbers), hence the inner
`roundB64` on each summand. -/
def jsSum (amounts : List ℚ) : ℚ :=
  amounts.foldl (fun sum a => jsAdd sum (roundB64 a)) 0

/-! ### Expense aggregator (`ExpenseSubmissions.tsx`) -/

/-- The value of `getMonthYear` (lines 89-92): the year and month extracted
from the expense date.  The code renders the pair as an `en-US` string such as
`"November 2025"`; distinct pairs render to distinct strings and
`new Date(label)` recovers the first day of the month, so the label is
faithfully represented by the pair itself. -/
structure MonthLabel where
  year : Nat
  month : Nat
deriving DecidableEq, Repr

/-- The function `getMonthYear` maps an expense date to its month label. -/
def getMonthYear (d : YMD) : MonthLabel :=
  { year := d.year, month := d.month }

/-- The order used by the `uniqueMonths` sort comparator
`(a, b) => new Date(b).getTime() - new Date(a).getTime()`: `a` comes no later
in the output than `b` exactly when `a`'s month is the same as or more recent
than `b`'s. -/
def laterOrSame (a b : MonthLabel) : Prop :=
  b.year < a.year ∨ (b.year = a.year ∧ b.month ≤ a.month)

instance : DecidableRel laterOrSame := fun a b => by
  unfold laterOrSame; infer_instance

instance : IsTotal MonthLabel laterOrSame :=
  ⟨by intro a b; unfold laterOrSame; omega⟩

instance : IsTrans MonthLabel laterOrSame :=
  ⟨by intro a b c; unfold laterOrSame; omega⟩

/-- Deduplication keeping first occurrences, with an accumulator of values
already seen: the observable behaviour of
`Array.from(new Set(xs))` (a JS `Set` keeps insertion order). -/
def dedupFirstAux {α : Type*} [DecidableEq α] (seen : List α) : List α → List α
  | [] => []
  | a :: l => if a ∈ seen then dedupFirstAux seen l else a :: dedupFirstAux (a :: seen) l

/-- Deduplication keeping first occurrences. -/
def dedupFirst {α : Type*} [DecidableEq α] (l : List α) : List α :=
  dedupFirstAux [] l

/-- The `uniqueMonths` computation (lines 94-96): map each expense to its
month label, deduplicate via a `Set`, then sort most-recent-first.  The
comparator is consistent and all remaining labels are distinct, so every
sorting algorithm produces the same list; insertion sort stands in for the
JS engine's sort. -/
def uniqueMonths (expenses : List ExpenseSubmission) : List MonthLabel :=
  List.insertionSort laterOrSame
    (dedupFirst (expenses.map (fun exp => getMonthYear exp.expense_date)))

/-- The month filter selected in the UI: the distinguished `'all'` option or
one of the month labels. -/
inductive MonthFilter where
  | all : MonthFilter
  | month : MonthLabel → MonthFilter
deriving DecidableEq, Repr

/-- The `filteredExpenses` computation (lines 98-100): `'all'` passes the
whole list through, a month label keeps the records whose derived label
equals it. -/
def filteredExpenses (expenses : List ExpenseSubmission) : MonthFilter → List ExpenseSubmission
  | MonthFilter.all => expenses
  | MonthFilter.month m => expenses.filter (fun exp => getMonthYear exp.expense_date = m)

/-- The result record of `calculateTotals`. -/
structure Totals where
  total : ℚ
  approved : ℚ
  pending : ℚ
deriving DecidableEq, Repr

/-- The `calculateTotals` computation (lines 140-150), with the source's
binary64 arithmetic: `total` sums every amount, `approved` sums the amounts
of records with status `'approved'` or `'paid'`, `pending` those with status
`'submitted'` or `'under_review'`. -/
def calculateTotals (expenseList : List ExpenseSubmission) : Totals :=
  { total := jsSum (expenseList.map (fun exp => exp.amount))
  , approved := jsSum ((expenseList.filter
      (fun exp => exp.status = "approved" ∨ exp.status = "paid")).map (fun exp => exp.amount))
  , pending := jsSum ((expenseList.filter
      (fun exp => exp.status = "submitted" ∨ exp.status = "under_review")).map (fun exp => exp.amount)) }

/-- The totals computation as the spec words it, for comparison with the
source's `calculateTotals`: the same three sums taken with exact
decimal/fixed-point (here: exact rational) arithmetic. -/
def calculateTotalsExact (expenseList : List ExpenseSubmission) : Totals :=
  { total := ((expenseList.map (fun exp => exp.amount)).sum : ℚ)
  , approved := ((expenseList.filter
      (fun exp => exp.status = "approved" ∨ exp.status = "paid")).map (fun exp => exp.amount)).sum
  , pending := ((expenseList.filter
      (fun exp => exp.status = "submitted" ∨ exp.status = "under_review")).map (fun exp => exp.amount)).sum }

/-- The spec's `summarize(expenses, monthFilter) -> (filtered, totals)` entry
point, assembled exactly as the component does: `filteredExpenses`
(lines 98-100) feeding `calculateTotals(filteredExpenses)` (line 152). -/
def summarize (expenses : List ExpenseSubmission) (f : MonthFilter) :
    List ExpenseSubmission × Totals :=
  (filteredExpenses expenses f, calculateTotals (filteredExpenses expenses f))

/-- The `getStatusColor` switch (lines 102-119); the `default` arm returns the
gray badge. -/
def getStatusColor (status : String) : String :=
  if status = "draft" then "bg-gray-100 text-gray-700 border-gray-200"
  else if status = "submitted" then "bg-blue-100 text-blue-700 border-blue-200"
  else if status = "under_review" then "bg-yellow-100 text-yellow-700 border-yellow-200"
  else if status = "approved" then "bg-green-100 text-green-700 border-green-200"
  else if status = "rejected" then "bg-red-100 text-red-700 border-red-200"
  else if status = "paid" then "bg-emerald-100 text-emerald-700 border-emerald-200"
  else "bg-gray-100 text-gray-700 border-gray-200"

/-- The `getCategoryIcon` switch (lines 121-138); the `default` arm returns
the page icon. -/
def getCategoryIcon (category : String) : String :=
  if category = "travel" then "🚗"
  else if category = "meals" then "🍽️"
  else if category = "materials" then "🔧"
  else if category = "fuel" then "⛽"
  else if category = "accommodation" then "🏨"
  else if category = "other" then "📋"
  else "📄"

/-! ### Concrete records used to instantiate the theorems -/

/-- A service-call record with the given status, for concrete
instantiations. -/
def sampleCall (status : String) : ServiceCall :=
  { id := "call-1", ticket_number := "TKT-1001", customer_id := "cust-1"
  , assigned_engineer_id := "eng-1", title := "Pump inspection"
  , description := "Quarterly inspection", priority := "medium"
  , status := status, category := "inspection", location := "Plant 4"
  , scheduled_date := some "2025-11-10T09:00:00.000Z", started_at := none
  , completed_at := none, notes := "", created_at := "2025-11-01T00:00:00.000Z"
  , updated_at := "2025-11-01T00:00:00.000Z", customer := none }

/-- An expense record with the given amount, status and expense date, for
concrete instantiations. -/
def sampleExpense (amount : ℚ) (status : String) (d : YMD) : ExpenseSubmission :=
  { id := "exp-1", engineer_id := "eng-1", expense_date := d
  , category := "travel", amount := amount, currency := "USD"
  , description := "Site travel", receipt_url := "", service_call_id := none
  , status := status, submitted_at := none, reviewed_at := none
  , reviewed_by := none, review_notes := "", payment_date := none
  , created_at := "2025-11-01T00:00:00.000Z"
  , updated_at := "2025-11-01T00:00:00.000Z" }

/-! ## Theorems -/

/-- C1: for every service call and requested status, moving to `in_progress`
yields exactly the patch `(status, started_at := now)` and moving to `closed`
yields exactly `(status, completed_at := now)`; applying the patch changes the
named fields and nothing else, and any other requested status patches the
status field alone. -/
theorem handleStatusChange_patch (call : ServiceCall) (now : String) :
    updateDataFor "in_progress" now = [("status", "in_progress"), ("started_at", now)]
    ∧ updateDataFor "closed" now = [("status", "closed"), ("completed_at", now)]
    ∧ applyPatch call (updateDataFor "in_progress" now)
        = { call with status := "in_progress", started_at := some now }
    ∧ applyPatch call (updateDataFor "closed" now)
        = { call with status := "closed", completed_at := some now }
    ∧ ∀ s, s ≠ "in_progress" → s ≠ "closed" →
        updateDataFor s now = [("status", s)]
        ∧ applyPatch call (updateDataFor s now) = { call with status := s } := by
  refine ⟨rfl, rfl, rfl, rfl, fun s h1 h2 => ?_⟩
  have hu : updateDataFor s now = [("status", s)] := by
    simp only [updateDataFor, if_neg h1, if_neg h2, List.append_nil]
  exact ⟨hu, by rw [hu]; rfl⟩

/-- C1 witness: the theorem instantiated at a concrete call, timestamp and
requested status `assigned`. -/
theorem handleStatusChange_patch_witness :
    updateDataFor "assigned" "2025-11-08T10:00:00.000Z" = [("status", "assigned")]
    ∧ applyPatch (sampleCall "assigned") (updateDataFor "assigned" "2025-11-08T10:00:00.000Z")
        = { sampleCall "assigned" with status := "assigned" } :=
  (handleStatusChange_patch (sampleCall "assigned") "2025-11-08T10:00:00.000Z").2.2.2.2
    "assigned" (by decide) (by decide)

/-- C2 counterexample: asked to move a call that is already `closed` to
`in_progress`, the component does not reject the request — the update goes
through, the stored record leaves the `closed` state and `started_at` is
re-stamped.  (The claim says every disallowed transition, in particular any
transition out of `closed`, is rejected.) -/
theorem closedTransition_applied :
    (applyPatch (sampleCall "closed") (updateDataFor "in_progress" "2025-11-09T08:00:00.000Z")).status
        = "in_progress"
    ∧ (applyPatch (sampleCall "closed") (updateDataFor "in_progress" "2025-11-09T08:00:00.000Z")).started_at
        = some "2025-11-09T08:00:00.000Z" :=
  ⟨rfl, rfl⟩

/-- C2 amended: only the triggering UI restricts transitions —
`getActionButton` offers `assigned → in_progress` and `in_progress → closed`
and offers nothing for `closed` or for an unknown status — while the
status-change handler itself performs no validation: it applies whatever
status is requested, whatever the current status is. -/
theorem transition_ui_only (call : ServiceCall) (s now : String) :
    getActionButton "assigned" = some "in_progress"
    ∧ getActionButton "in_progress" = some "closed"
    ∧ getActionButton "closed" = none
    ∧ (s ≠ "assigned" → s ≠ "in_progress" → getActionButton s = none)
    ∧ (applyPatch call (updateDataFor s now)).status = s := by
  refine ⟨rfl, rfl, rfl, fun h1 h2 => ?_, ?_⟩
  · simp only [getActionButton, if_neg h1, if_neg h2]
  · by_cases h1 : s = "in_progress"
    · subst h1; rfl
    · by_cases h2 : s = "closed"
      · subst h2; rfl
      · simp only [updateDataFor, if_neg h1, if_neg h2, List.append_nil]
        rfl

/-- C2 amended witness: the theorem instantiated at a concrete closed call
and the unknown requested status `cancelled`. -/
theorem transition_ui_only_witness :
    getActionButton "cancelled" = none
    ∧ (applyPatch (sampleCall "closed") (updateDataFor "cancelled" "2025-11-09T08:00:00.000Z")).status
        = "cancelled" :=
  ⟨(transition_ui_only (sampleCall "closed") "cancelled" "2025-11-09T08:00:00.000Z").2.2.2.1
      (by decide) (by decide),
    (transition_ui_only (sampleCall "closed") "cancelled" "2025-11-09T08:00:00.000Z").2.2.2.2⟩

/-- The three bucket lengths always add up to the number of records whose
status is one of the three known values (shared helper for the partition
theorems). -/
theorem partition_length_countP (calls : List ServiceCall) :
    (partition calls).assigned.length + (partition calls).inProgress.length
      + (partition calls).closed.length
      = calls.countP (fun c => decide (KnownStatus c.status)) := by
  induction calls with
  | nil => rfl
  | cons c l ih =>
    simp only [partition, List.filter_cons, List.countP_cons] at ih ⊢
    by_cases h1 : c.status = "assigned"
    · have ha : decide (c.status = "assigned") = true := by simp [h1]
      have hb : decide (c.status = "in_progress") = false := by simp [h1]
      have hc2 : decide (c.status = "closed") = false := by simp [h1]
      have hd : decide (KnownStatus c.status) = true := by simp [KnownStatus, h1]
      simp [ha, hb, hc2, hd]
      omega
    · by_cases h2 : c.status = "in_progress"
      · have ha : decide (c.status = "assigned") = false := by simp [h2]
        have hb : decide (c.status = "in_progress") = true := by simp [h2]
        have hc2 : decide (c.status = "closed") = false := by simp [h2]
        have hd : decide (KnownStatus c.status) = true := by simp [KnownStatus, h2]
        simp [ha, hb, hc2, hd]
        omega
      · by_cases h3 : c.status = "closed"
        · have ha : decide (c.status = "assigned") = false := by simp [h3]
          have hb : decide (c.status = "in_progress") = false := by simp [h3]
          have hc2 : decide (c.status = "closed") = true := by simp [h3]
          have hd : decide (KnownStatus c.status) = true := by simp [KnownStatus, h3]
          simp [ha, hb, hc2, hd]
          omega
        · have ha : decide (c.status = "assigned") = false := by simp [h1]
          have hb : decide (c.status = "in_progress") = false := by simp [h2]
          have hc2 : decide (c.status = "closed") = false := by simp [h3]
          have hd : decide (KnownStatus c.status) = false := by
            simp [KnownStatus, h1, h2, h3]
          simp [ha, hb, hc2, hd]
          omega

/-- C4: over records whose status is one of the three known values (which is
what the `ServiceCall['status']` union type asserts), `partition` puts every
occurrence of a record in exactly one bucket, each bucket is a
subsequence of the input (stable, order-preserving), each bucket holds only
records of its own status, and the bucket sizes add up to the input size. -/
theorem partition_spec (calls : List ServiceCall)
    (h : ∀ c ∈ calls, KnownStatus c.status) :
    ((partition calls).assigned.length + (partition calls).inProgress.length
        + (partition calls).closed.length = calls.length)
    ∧ List.Sublist (partition calls).assigned calls
    ∧ List.Sublist (partition calls).inProgress calls
    ∧ List.Sublist (partition calls).closed calls
    ∧ (∀ c ∈ calls,
        List.count c (partition calls).assigned
          + List.count c (partition calls).inProgress
          + List.count c (partition calls).closed = List.count c calls)
    ∧ (∀ c ∈ (partition calls).assigned, c.status = "assigned")
    ∧ (∀ c ∈ (partition calls).inProgress, c.status = "in_progress")
    ∧ (∀ c ∈ (partition calls).closed, c.status = "closed") := by
  refine ⟨?_, List.filter_sublist calls, List.filter_sublist calls, List.filter_sublist calls,
    ?_, ?_, ?_, ?_⟩
  · rw [partition_length_countP calls]
    exact List.countP_eq_length.mpr fun c hc => by simpa using h c hc
  · intro c hc
    simp only [partition]
    have ha : List.count c (List.filter (fun call => decide (call.status = "assigned")) calls)
        = if c.status = "assigned" then List.count c calls else 0 := by
      split
      · exact List.count_filter (by simpa)
      · exact List.count_eq_zero.mpr fun hm => by
          have := (List.mem_filter.mp hm).2
          simp_all
    have hb : List.count c (List.filter (fun call => decide (call.status = "in_progress")) calls)
        = if c.status = "in_progress" then List.count c calls else 0 := by
      split
      · exact List.count_filter (by simpa)
      · exact List.count_eq_zero.mpr fun hm => by
          have := (List.mem_filter.mp hm).2
          simp_all
    have hc2 : List.count c (List.filter (fun call => decide (call.status = "closed")) calls)
        = if c.status = "closed" then List.count c calls else 0 := by
      split
      · exact List.count_filter (by simpa)
      · exact List.count_eq_zero.mpr fun hm => by
          have := (List.mem_filter.mp hm).2
          simp_all
    rw [ha, hb, hc2]
    rcases h c hc with h1 | h1 | h1 <;>
      simp [h1]
  · intro c hc
    simp only [partition] at hc
    simpa using (List.mem_filter.mp hc).2
  · intro c hc
    simp only [partition] at hc
    simpa using (List.mem_filter.mp hc).2
  · intro c hc
    simp only [partition] at hc
    simpa using (List.mem_filter.mp hc).2

/-- C4 witness: the theorem instantiated at a concrete list of calls bearing
only known statuses. -/
theorem partition_spec_witness :
    (partition [sampleCall "assigned", sampleCall "in_progress", sampleCall "closed",
        sampleCall "assigned"]).assigned.length
      + (partition [sampleCall "assigned", sampleCall "in_progress", sampleCall "closed",
        sampleCall "assigned"]).inProgress.length
      + (partition [sampleCall "assigned", sampleCall "in_progress", sampleCall "closed",
        sampleCall "assigned"]).closed.length
      = [sampleCall "assigned", sampleCall "in_progress", sampleCall "closed",
        sampleCall "assigned"].length :=
  (partition_spec [sampleCall "assigned", sampleCall "in_progress", sampleCall "closed",
    sampleCall "assigned"] (by decide)).1

/-- C10: a record whose status string is none of the three known values is
placed in no output bucket — it is silently dropped from the display — and
the three bucket sizes add up to the number of records bearing a known
status, not to the input size. -/
theorem partition_unknown_dropped (calls : List ServiceCall) :
    ((partition calls).assigned.length + (partition calls).inProgress.length
        + (partition calls).closed.length
      = calls.countP (fun c => decide (KnownStatus c.status)))
    ∧ ∀ c ∈ calls, ¬KnownStatus c.status →
        c ∉ (partition calls).assigned ∧ c ∉ (partition calls).inProgress
          ∧ c ∉ (partition calls).closed := by
  refine ⟨partition_length_countP calls,
    fun c hc hk => ⟨fun hm => ?_, fun hm => ?_, fun hm => ?_⟩⟩
  · simp only [partition] at hm
    exact hk (Or.inl (by simpa using (List.mem_filter.mp hm).2))
  · simp only [partition] at hm
    exact hk (Or.inr (Or.inl (by simpa using (List.mem_filter.mp hm).2)))
  · simp only [partition] at hm
    exact hk (Or.inr (Or.inr (by simpa using (List.mem_filter.mp hm).2)))

/-- C10 witness: over a concrete list holding one `assigned` record and one
record with the unknown status `cancelled`, the unknown record is in no
bucket and the bucket sizes add up to 1, not to the input size 2. -/
theorem partition_unknown_dropped_witness :
    (sampleCall "cancelled" ∉ (partition [sampleCall "assigned", sampleCall "cancelled"]).assigned
      ∧ sampleCall "cancelled" ∉ (partition [sampleCall "assigned", sampleCall "cancelled"]).inProgress
      ∧ sampleCall "cancelled" ∉ (partition [sampleCall "assigned", sampleCall "cancelled"]).closed)
    ∧ (partition [sampleCall "assigned", sampleCall "cancelled"]).assigned.length
        + (partition [sampleCall "assigned", sampleCall "cancelled"]).inProgress.length
        + (partition [sampleCall "assigned", sampleCall "cancelled"]).closed.length = 1 :=
  ⟨(partition_unknown_dropped [sampleCall "assigned", sampleCall "cancelled"]).2
      (sampleCall "cancelled") (by decide) (by decide),
    (partition_unknown_dropped [sampleCall "assigned", sampleCall "cancelled"]).1.trans
      (by decide)⟩

/-- Membership in the first-occurrence deduplication (shared helper). -/
theorem mem_dedupFirstAux {α : Type*} [DecidableEq α] (l : List α) :
    ∀ (seen : List α) (a : α), a ∈ dedupFirstAux seen l ↔ a ∈ l ∧ a ∉ seen := by
  induction l with
  | nil =>
    intro seen a
    simp [dedupFirstAux]
  | cons b l ih =>
    intro seen a
    simp only [dedupFirstAux]
    by_cases hb : b ∈ seen
    · rw [if_pos hb, ih]
      constructor
      · exact fun h => ⟨List.mem_cons_of_mem b h.1, h.2⟩
      · rintro ⟨h1, h2⟩
        rcases List.mem_cons.mp h1 with rfl | h1
        · exact absurd hb h2
        · exact ⟨h1, h2⟩
    · rw [if_neg hb]
      constructor
      · intro h
        rcases List.mem_cons.mp h with rfl | h
        · exact ⟨List.mem_cons_self a l, hb⟩
        · rw [ih] at h
          exact ⟨List.mem_cons_of_mem b h.1, fun hs => h.2 (List.mem_cons_of_mem b hs)⟩
      · rintro ⟨h1, h2⟩
        rcases List.mem_cons.mp h1 with rfl | h1
        · exact List.mem_cons_self a _
        · by_cases hab : a = b
          · subst hab
            exact List.mem_cons_self a _
          · refine List.mem_cons_of_mem b ?_
            rw [ih]
            exact ⟨h1, fun hs => (List.mem_cons.mp hs).elim hab h2⟩

/-- The first-occurrence deduplication never repeats an element (shared
helper). -/
theorem nodup_dedupFirstAux {α : Type*} [DecidableEq α] (l : List α) :
    ∀ seen : List α, (dedupFirstAux seen l).Nodup := by
  induction l with
  | nil =>
    intro seen
    simp [dedupFirstAux]
  | cons b l ih =>
    intro seen
    simp only [dedupFirstAux]
    split
    · exact ih seen
    · refine List.nodup_cons.mpr ⟨fun hm => ?_, ih (b :: seen)⟩
      exact ((mem_dedupFirstAux l (b :: seen) b).mp hm).2 (List.mem_cons_self b seen)

/-- C7: the month list offered for filtering holds exactly the labels derived
from the records' expense dates, with no duplicates, ordered most recent
month first. -/
theorem uniqueMonths_spec (expenses : List ExpenseSubmission) :
    (∀ m, m ∈ uniqueMonths expenses
        ↔ ∃ exp ∈ expenses, getMonthYear exp.expense_date = m)
    ∧ (uniqueMonths expenses).Nodup
    ∧ (uniqueMonths expenses).Sorted laterOrSame := by
  refine ⟨fun m => ?_, ?_, List.sorted_insertionSort laterOrSame _⟩
  · rw [uniqueMonths, List.mem_insertionSort, dedupFirst, mem_dedupFirstAux]
    simp [List.mem_map]
  · rw [uniqueMonths, dedupFirst]
    exact (List.perm_insertionSort laterOrSame _).nodup_iff.mpr
      (nodup_dedupFirstAux _ [])

/-- C7 witness: the theorem instantiated at a concrete list whose records
span November 2025 (twice) and October 2025. -/
theorem uniqueMonths_spec_witness :
    MonthLabel.mk 2025 11 ∈ uniqueMonths
      [sampleExpense (mkRat 8550 100) "approved" ⟨2025, 11, 4⟩,
        sampleExpense (mkRat 4200 100) "submitted" ⟨2025, 10, 2⟩,
        sampleExpense (mkRat 15675 100) "paid" ⟨2025, 11, 20⟩] :=
  ((uniqueMonths_spec
      [sampleExpense (mkRat 8550 100) "approved" ⟨2025, 11, 4⟩,
        sampleExpense (mkRat 4200 100) "submitted" ⟨2025, 10, 2⟩,
        sampleExpense (mkRat 15675 100) "paid" ⟨2025, 11, 20⟩]).1 ⟨2025, 11⟩).mpr
    ⟨sampleExpense (mkRat 8550 100) "approved" ⟨2025, 11, 4⟩, by decide, rfl⟩

/-- C5: the filter `all` passes every record through unchanged, a month
filter passes exactly the records whose derived label equals it, and the
totals are computed over the filtered list. -/
theorem summarize_filter_spec (expenses : List ExpenseSubmission) (m : MonthLabel) :
    (summarize expenses MonthFilter.all).1 = expenses
    ∧ (∀ exp, exp ∈ (summarize expenses (MonthFilter.month m)).1
        ↔ exp ∈ expenses ∧ getMonthYear exp.expense_date = m)
    ∧ (∀ f, (summarize expenses f).2 = calculateTotals (summarize expenses f).1) := by
  refine ⟨rfl, fun exp => ?_, fun f => rfl⟩
  simp [summarize, filteredExpenses, List.mem_filter]

/-- C5 witness: the theorem instantiated at a concrete list and the November
2025 filter, which keeps the November record. -/
theorem summarize_filter_spec_witness :
    sampleExpense 100 "approved" ⟨2025, 11, 4⟩
      ∈ (summarize [sampleExpense 100 "approved" ⟨2025, 11, 4⟩,
          sampleExpense 50 "submitted" ⟨2025, 10, 2⟩]
          (MonthFilter.month ⟨2025, 11⟩)).1 :=
  ((summarize_filter_spec [sampleExpense 100 "approved" ⟨2025, 11, 4⟩,
        sampleExpense 50 "submitted" ⟨2025, 10, 2⟩] ⟨2025, 11⟩).2.1
      (sampleExpense 100 "approved" ⟨2025, 11, 4⟩)).mpr ⟨by decide, rfl⟩

/-- C9: whenever the filtered list is empty — in particular on empty input —
the three totals are zero and no error is signalled (the fold simply returns
its initial value). -/
theorem summarize_empty_totals (expenses : List ExpenseSubmission) (f : MonthFilter)
    (h : (summarize expenses f).1 = []) :
    (summarize expenses f).2 = { total := 0, approved := 0, pending := 0 } := by
  have h2 : (summarize expenses f).2 = calculateTotals (summarize expenses f).1 := rfl
  rw [h2, h]
  rfl

/-- C9 witness: the theorem instantiated at the empty input. -/
theorem summarize_empty_totals_witness :
    (summarize ([] : List ExpenseSubmission) MonthFilter.all).2
      = { total := 0, approved := 0, pending := 0 } :=
  summarize_empty_totals [] MonthFilter.all rfl

/-- C8: a status or category value outside the known enumerations reaches the
`default` arm of the display-classification switches, which return the gray
badge and the page icon; every possible input yields one of the seven defined
outputs, so these functions never fail. -/
theorem display_fallback (s c : String) :
    (s ∉ ["draft", "submitted", "under_review", "approved", "rejected", "paid"] →
      getStatusColor s = "bg-gray-100 text-gray-700 border-gray-200")
    ∧ (c ∉ ["travel", "meals", "materials", "fuel", "accommodation", "other"] →
      getCategoryIcon c = "📄")
    ∧ getStatusColor s ∈ ["bg-gray-100 text-gray-700 border-gray-200",
        "bg-blue-100 text-blue-700 border-blue-200",
        "bg-yellow-100 text-yellow-700 border-yellow-200",
        "bg-green-100 text-green-700 border-green-200",
        "bg-red-100 text-red-700 border-red-200",
        "bg-emerald-100 text-emerald-700 border-emerald-200"]
    ∧ getCategoryIcon c ∈ ["🚗", "🍽️", "🔧", "⛽", "🏨", "📋", "📄"] := by
  refine ⟨fun h => ?_, fun h => ?_, ?_, ?_⟩
  · simp only [List.mem_cons, List.not_mem_nil, or_false] at h
    push_neg at h
    obtain ⟨h1, h2, h3, h4, h5, h6⟩ := h
    simp only [getStatusColor, if_neg h1, if_neg h2, if_neg h3, if_neg h4, if_neg h5, if_neg h6]
  · simp only [List.mem_cons, List.not_mem_nil, or_false] at h
    push_neg at h
    obtain ⟨h1, h2, h3, h4, h5, h6⟩ := h
    simp only [getCategoryIcon, if_neg h1, if_neg h2, if_neg h3, if_neg h4, if_neg h5, if_neg h6]
  · unfold getStatusColor
    split_ifs <;> simp
  · unfold getCategoryIcon
    split_ifs <;> simp

/-- C8 witness: the theorem instantiated at the unknown status and category
value `bogus`. -/
theorem display_fallback_witness :
    getStatusColor "bogus" = "bg-gray-100 text-gray-700 border-gray-200"
    ∧ getCategoryIcon "bogus" = "📄" :=
  ⟨(display_fallback "bogus" "bogus").1 (by decide),
    (display_fallback "bogus" "bogus").2.1 (by decide)⟩

/-- C3 (code bug): `calculateTotals` sums in binary64 floating point, not in
exact decimal arithmetic.  Over the two-decimal amounts 0.10 and 0.20 the
computed total is 5404319552844596 / 2^54 = 0.30000000000000004…, not the
exact decimal sum 0.30 that the exact-arithmetic reading of the spec yields;
the spec's own example 85.50 + 42.00 + 156.75 involves only exactly
representable values and does come out as exactly 284.25. -/
theorem calculateTotals_binary64_drift :
    (calculateTotals [sampleExpense (mkRat 1 10) "submitted" ⟨2025, 11, 4⟩,
        sampleExpense (mkRat 2 10) "submitted" ⟨2025, 11, 5⟩]).total > mkRat 3 10
    ∧ (calculateTotals [sampleExpense (mkRat 1 10) "submitted" ⟨2025, 11, 4⟩,
        sampleExpense (mkRat 2 10) "submitted" ⟨2025, 11, 5⟩]).total
        = mkRat 5404319552844596 (2 ^ 54)
    ∧ (calculateTotalsExact [sampleExpense (mkRat 1 10) "submitted" ⟨2025, 11, 4⟩,
        sampleExpense (mkRat 2 10) "submitted" ⟨2025, 11, 5⟩]).total = mkRat 3 10
    ∧ (calculateTotals [sampleExpense (mkRat 8550 100) "approved" ⟨2025, 11, 4⟩,
        sampleExpense (mkRat 4200 100) "submitted" ⟨2025, 11, 5⟩,
        sampleExpense (mkRat 15675 100) "paid" ⟨2025, 11, 6⟩]).total = mkRat 28425 100 := by
  refine ⟨by decide, by decide, ?_, by decide⟩
  show ((([sampleExpense (mkRat 1 10) "submitted" ⟨2025, 11, 4⟩,
      sampleExpense (mkRat 2 10) "submitted" ⟨2025, 11, 5⟩]).map
        (fun exp => exp.amount)).sum : ℚ) = mkRat 3 10
  simp only [List.map_cons, List.map_nil, List.sum_cons, List.sum_nil, sampleExpense]
  rw [Rat.mkRat_eq_div, Rat.mkRat_eq_div, Rat.mkRat_eq_div]
  norm_num

/-- C6 (code bug): because the sums are taken in binary64 floating point, the
invariant `approved + pending ≤ total` fails on a concrete pair of valid
`numeric(10,2)` amounts — 33554432.01 (approved) and 0.01 (submitted) — where
the one big addition in the total rounds downwards; with exact arithmetic the
two sides are equal.  The spec's end-to-end integer example (100 approved,
50 submitted, 30 rejected giving 180 / 100 / 50) does hold, integers being
exactly representable. -/
theorem totals_inequality_violated :
    ((calculateTotals [sampleExpense (mkRat 3355443201 100) "approved" ⟨2025, 11, 4⟩,
          sampleExpense (mkRat 1 100) "submitted" ⟨2025, 11, 5⟩]).approved
        + (calculateTotals [sampleExpense (mkRat 3355443201 100) "approved" ⟨2025, 11, 4⟩,
          sampleExpense (mkRat 1 100) "submitted" ⟨2025, 11, 5⟩]).pending
      > (calculateTotals [sampleExpense (mkRat 3355443201 100) "approved" ⟨2025, 11, 4⟩,
          sampleExpense (mkRat 1 100) "submitted" ⟨2025, 11, 5⟩]).total)
    ∧ calculateTotals [sampleExpense 100 "approved" ⟨2025, 11, 4⟩,
        sampleExpense 50 "submitted" ⟨2025, 11, 5⟩,
        sampleExpense 30 "rejected" ⟨2025, 11, 6⟩]
        = { total := 180, approved := 100, pending := 50 } := by
  constructor
  · have e1 : (calculateTotals [sampleExpense (mkRat 3355443201 100) "approved" ⟨2025, 11, 4⟩,
          sampleExpense (mkRat 1 100) "submitted" ⟨2025, 11, 5⟩]).approved
        = mkRat 4503599628712673 (2 ^ 27) := by decide
    have e2 : (calculateTotals [sampleExpense (mkRat 3355443201 100) "approved" ⟨2025, 11, 4⟩,
          sampleExpense (mkRat 1 100) "submitted" ⟨2025, 11, 5⟩]).pending
        = mkRat 5764607523034235 (2 ^ 59) := by decide
    have e3 : (calculateTotals [sampleExpense (mkRat 3355443201 100) "approved" ⟨2025, 11, 4⟩,
          sampleExpense (mkRat 1 100) "submitted" ⟨2025, 11, 5⟩]).total
        = mkRat 2251799815027425 (2 ^ 26) := by decide
    rw [e1, e2, e3, Rat.mkRat_eq_div, Rat.mkRat_eq_div, Rat.mkRat_eq_div]
    norm_num
  · decide

end Alvoie
